import Mathlib

/-!
Verification development for the Gantt Planner core: a shallow embedding of
the project/task data model, statistics, sorting, dependency resolution,
duplication, deletion, validation and the export fallback chain, with
theorems checking the specified properties against the embedded code.

Sources embedded: app_fixed.py (delete_task, duplicate_project),
data_manager.py (save_project, project_to_dataframe, update_tasks_from_dataframe),
utils.py (validate_excel_file, calculate_project_stats),
gantt_visualizer_fixed.py (create_gantt_chart sorting and colors,
export_gantt_as_image).
-/

namespace GanttPlanner

/-- A task record as stored in a project document (dict in the source).
Dates are kept as ISO strings exactly as the JSON documents store them. -/
structure Task where
  id : String
  name : String
  start_date : String
  end_date : String
  resource : String
  status : String
  priority : String
  dependencies : List String
  description : String
deriving DecidableEq, Repr

/-- A project document. -/
structure Project where
  id : String
  name : String
  created_at : String
  updated_at : String
  tasks : List Task
deriving DecidableEq, Repr

/-- Python dict lookup over an association list built by successive
assignments: a later binding for the same key overwrites an earlier one,
so a lookup finds the last binding. -/
def dictLookup {β : Type} (m : List (String × β)) (k : String) : Option β :=
  (m.reverse.find? (fun p => p.1 = k)).map (fun p => p.2)

/-- app_fixed.py delete_task: keeps only the tasks whose id differs from the
removed id and refreshes updated_at.  It does not touch the surviving tasks'
dependency lists. -/
def delete_task (p : Project) (taskId : String) (now : String) : Project :=
  { p with
    tasks := p.tasks.filter (fun t => t.id ≠ taskId),
    updated_at := now }

/-- app_fixed.py duplicate_project: copies the project under a fresh project
id, appends " (copie)" to the name, gives every task a fresh id (the caller's
uuid draws, one per task, passed here as the list fresh), records the old→new
id mapping, then rewrites every task's dependency list through that mapping,
dropping ids the mapping does not know. -/
def duplicate_project (p : Project) (newProjectId : String) (now : String)
    (fresh : List String) : Project :=
  let pairs := p.tasks.zip fresh
  let oldToNew : List (String × String) := pairs.map (fun q => (q.1.id, q.2))
  let retasked := pairs.map (fun q => { q.1 with id := q.2 })
  let remapped := retasked.map (fun t =>
    { t with dependencies := t.dependencies.filterMap (fun d => dictLookup oldToNew d) })
  { p with
    id := newProjectId,
    name := p.name ++ " (copie)",
    created_at := now,
    updated_at := now,
    tasks := remapped }

/-- The outcome of one renderer stage of the export chain: the payload it
produced, or the message of the exception it raised. -/
inductive RenderOutcome where
  | ok (payload : String)
  | err (msg : String)
deriving DecidableEq, Repr

/-- gantt_visualizer_fixed.py, solution 4: the raw scene serialized as text
inside a minimal HTML viewer document. -/
def json_viewer_html (sceneJson : String) : String :=
  "<html><head><title>Diagramme Gantt (JSON)</title></head><body>" ++
  "<h1>Diagramme Gantt - Format JSON</h1><textarea>" ++ sceneJson ++
  "</textarea></body></html>"

/-- gantt_visualizer_fixed.py, solution 5: the static explanatory failure
document returned as the terminal stage of the chain. -/
def export_error_html : String :=
  "<html><head><title>Erreur d'exportation</title></head><body>" ++
  "<h1>Erreur d'exportation</h1>" ++
  "<p>Impossible d'exporter le diagramme.</p></body></html>"

/-- gantt_visualizer_fixed.py export_gantt_as_image: ordered fallback chain
SVG → PNG → interactive HTML → JSON-in-viewer → static error document.  Each
stage's try/except outcome is embedded as a RenderOutcome argument; a stage's
exception makes the chain advance to the next stage.  The function is total:
no exception reaches the caller. -/
def export_gantt_as_image (svg png html jsonDump : RenderOutcome) :
    String × String :=
  match svg with
  | .ok b => (b, "image/svg+xml")
  | .err _ =>
    match png with
    | .ok b => (b, "image/png")
    | .err _ =>
      match html with
      | .ok b => (b, "text/html")
      | .err _ =>
        match jsonDump with
        | .ok s => (json_viewer_html s, "text/html")
        | .err _ => (export_error_html, "text/html")

/-- A display row of the task table (one row of the DataFrame built by
project_to_dataframe).  Dates are calendar dates counted in days, as pandas
datetimes differ by whole days here. -/
structure Row where
  name : String
  startDate : Int
  endDate : Int
  resource : String
  status : String
  priority : String
deriving DecidableEq, Repr

/-- data_manager.py project_to_dataframe / gantt_visualizer_fixed.py: the
derived duration column, (end − start).days + 1. -/
def duree (r : Row) : Int :=
  r.endDate - r.startDate + 1

/-- A stable comparison sort by a key, modelling pandas
DataFrame.sort_values(column) (ascending). -/
def sortByKey {α : Type} [LinearOrder α] (key : Row → α) (rows : List Row) :
    List Row :=
  @List.insertionSort Row (fun a b => key a ≤ key b)
    (fun a b => inferInstanceAs (Decidable (key a ≤ key b))) rows

/-- gantt_visualizer_fixed.py create_gantt_chart, sorting step: sorting by
the duration column uses ascending=False (most-to-least); any other
supported column is sorted ascending by pandas sort_values.  Unsupported
column names are outside the UI's five options and left unmodelled (the
rows pass through). -/
def create_gantt_chart_sort (sortBy : String) (rows : List Row) : List Row :=
  if sortBy = "Durée" then
    @List.insertionSort Row (fun a b => duree b ≤ duree a)
      (fun a b => inferInstanceAs (Decidable (duree b ≤ duree a))) rows
  else if sortBy = "Date de début" then sortByKey (fun r => r.startDate) rows
  else if sortBy = "Date de fin" then sortByKey (fun r => r.endDate) rows
  else if sortBy = "Responsable" then sortByKey (fun r => r.resource) rows
  else if sortBy = "Priorité" then sortByKey (fun r => r.priority) rows
  else rows

/-- The statistics record returned by calculate_project_stats.  The
completion rate is kept as an exact rational (the source computes the same
quotient in floating point). -/
structure Stats where
  total_tasks : Nat
  completed_tasks : Nat
  completion_rate : ℚ
  critical_tasks : Nat
  duration : Int
  delayed_tasks : Nat
deriving DecidableEq, Repr

/-- utils.py calculate_project_stats: all-zero statistics for an empty task
table, otherwise counts, completed/total·100, and (max end − min start) + 1
days (pandas Series.min/max fold over the column). -/
def calculate_project_stats (df : List Row) : Stats :=
  match df with
  | [] => ⟨0, 0, 0, 0, 0, 0⟩
  | t :: ts =>
    let total := (t :: ts).length
    let completed := ((t :: ts).filter (fun x => x.status = "Terminé")).length
    let completion_rate : ℚ := (completed : ℚ) / (total : ℚ) * 100
    let critical := ((t :: ts).filter (fun x => x.priority = "Critique")).length
    let delayed := ((t :: ts).filter (fun x => x.status = "En retard")).length
    let min_date := ts.foldl (fun m x => min m x.startDate) t.startDate
    let max_date := ts.foldl (fun m x => max m x.endDate) t.endDate
    ⟨total, completed, completion_rate, critical, max_date - min_date + 1,
      delayed⟩

/-- utils.py validate_excel_file: accepted synonyms for the task-name
column. -/
def tacheAlts : List String :=
  ["Tâche", "Tache", "Task", "Nom", "Name"]

/-- Accepted synonyms for the start-date column. -/
def debutAlts : List String :=
  ["Date de début", "Date début", "Start Date", "Début", "Start"]

/-- Accepted synonyms for the end-date column. -/
def finAlts : List String :=
  ["Date de fin", "Date fin", "End Date", "Fin", "End"]

/-- An imported tabular dataset after pandas parsing: its column names, and
per data row the parse results of the start and end date cells
(none models pandas NaT from to_datetime with errors coerce). -/
structure Sheet where
  columns : List String
  rows : List (Option Int × Option Int)
deriving DecidableEq, Repr

/-- The required canonical columns for which no synonym is present, in the
source's dictionary order. -/
def missing_columns (cols : List String) : List String :=
  (if tacheAlts.any (fun a => cols.contains a) then [] else ["Tâche"]) ++
  (if debutAlts.any (fun a => cols.contains a) then [] else ["Date de début"]) ++
  (if finAlts.any (fun a => cols.contains a) then [] else ["Date de fin"])

/-- One row's end-date-precedes-start-date test (false when either date
failed to parse, those rows are caught by the earlier NaT check). -/
def end_before_start (r : Option Int × Option Int) : Bool :=
  match r.1, r.2 with
  | some a, some b => decide (b < a)
  | _, _ => false

/-- utils.py validate_excel_file: reject on a missing required column, then
on any unparseable date, then on any end date before its start date;
otherwise accept.  Always a (flag, reason) pair. -/
def validate_excel_file (s : Sheet) : Bool × String :=
  let missing := missing_columns s.columns
  if missing ≠ [] then
    (false, "Colonnes manquantes : " ++ String.intercalate ", " missing)
  else if s.rows.any (fun r => r.1.isNone || r.2.isNone) then
    (false, "Certaines dates sont invalides")
  else if s.rows.any end_before_start then
    (false, "Certaines dates de fin sont antérieures aux dates de début")
  else
    (true, "Le fichier est valide")

/-- One edited row of the data editor table, as handed to
update_tasks_from_dataframe (dates kept as their ISO rendering, the
dependency cell as its display string of comma-separated names). -/
structure EditRow where
  id : String
  tache : String
  date_debut : String
  date_fin : String
  responsable : String
  statut : String
  priorite : String
  dependances : String
  description : String
deriving DecidableEq, Repr

/-- data_manager.py update_tasks_from_dataframe: the name→id dict built once
from the project's tasks before any row is applied (python dict
comprehension, a later task with the same name overwrites an earlier one). -/
def task_name_to_id (tasks : List Task) (name : String) : Option String :=
  dictLookup (tasks.map (fun t => (t.name, t.id))) name

/-- Splitting the dependency display string on commas, stripping blanks, and
keeping only names the lookup knows (an empty cell is falsy in python and
yields no dependencies). -/
def resolve_row_dependencies (lookup : String → Option String)
    (depStr : String) : List String :=
  if depStr = "" then []
  else ((depStr.splitOn ",").map (fun n => n.trim)).filterMap lookup

/-- Dependency re-resolution against the project's current tasks. -/
def resolve_dependencies (tasks : List Task) (depStr : String) : List String :=
  resolve_row_dependencies (task_name_to_id tasks) depStr

/-- Applying one edited row: the first task whose id matches the row's id
takes all the row's field values, its dependencies re-resolved through the
captured name→id lookup. -/
def update_row (lookup : String → Option String) (ts : List Task)
    (row : EditRow) : List Task :=
  match ts with
  | [] => []
  | t :: rest =>
    if t.id = row.id then
      { t with
        name := row.tache,
        start_date := row.date_debut,
        end_date := row.date_fin,
        resource := row.responsable,
        status := row.statut,
        priority := row.priorite,
        dependencies := resolve_row_dependencies lookup row.dependances,
        description := row.description } :: rest
    else t :: update_row lookup rest row

/-- data_manager.py update_tasks_from_dataframe over all edited rows: the
name→id dict is computed once from the tasks at the time of the call, then
each row updates its task. -/
def update_tasks_from_dataframe (tasks : List Task) (rows : List EditRow) :
    List Task :=
  rows.foldl (fun acc row => update_row (task_name_to_id tasks) acc row) tasks

/-- The plotly qualitative palette used for resource coloring
(px.colors.qualitative.Plotly, ten colors). -/
def plotlyPalette : List String :=
  ["#636EFA", "#EF553B", "#00CC96", "#AB63FA", "#FFA15A",
   "#19D3F3", "#FF6692", "#B6E880", "#FF97FF", "#FECB52"]

/-- pandas Series.unique: the distinct values in first-seen order. -/
def uniqueFirstSeen (l : List String) : List String :=
  l.foldl (fun acc r => if r ∈ acc then acc else acc ++ [r]) []

/-- gantt_visualizer_fixed.py create_gantt_chart, resource coloring: the
distinct resources in first-seen order zipped with the palette sliced to
their count (the slice keeps at most the palette's ten entries, so the zip
truncates when there are more distinct resources). -/
def resource_color_map (resources : List String) : List (String × String) :=
  let uniq := uniqueFirstSeen resources
  let colors := plotlyPalette.take uniq.length
  uniq.zip colors

/-- Eleven pairwise-distinct resource names, one more than the palette. -/
def elevenResources : List String :=
  ["r0", "r1", "r2", "r3", "r4", "r5", "r6", "r7", "r8", "r9", "rA"]

/-- A loosely-typed project document as data_manager.save_project receives
it: a python dict of string fields. -/
abbrev PyDict := List (String × String)

/-- Writing a document into the keyed store under an id (the id.json file):
any previous document under the same id is replaced. -/
def store_put (store : List (String × PyDict)) (k : String) (v : PyDict) :
    List (String × PyDict) :=
  store.filter (fun p => p.1 ≠ k) ++ [(k, v)]

/-- data_manager.py save_project: refuse a missing or empty document and a
document without an id field (returning false with the store untouched);
otherwise write the document under its id and return true. -/
def save_project (store : List (String × PyDict)) (project : Option PyDict) :
    Bool × List (String × PyDict) :=
  match project with
  | none => (false, store)
  | some d =>
    if d = [] then (false, store)
    else
      match dictLookup d "id" with
      | none => (false, store)
      | some pid => (true, store_put store pid d)

/-- A concrete two-task project: task b depends on task a. -/
def taskA : Task :=
  ⟨"a", "Analyse", "2024-01-01", "2024-01-05", "Alice", "Terminé", "Haute",
    [], ""⟩

/-- The dependent sibling task with a dependency on task a. -/
def taskB : Task :=
  ⟨"b", "Conception", "2024-01-06", "2024-01-10", "Bob", "En cours", "Haute",
    ["a"], ""⟩

/-- The project holding taskA and taskB. -/
def projAB : Project :=
  ⟨"p1", "Projet", "2024-01-01", "2024-01-01", [taskA, taskB]⟩

/-- The one-row task table used as the concrete statistics input. -/
def dfStats : List Row :=
  [⟨"T1", 0, 4, "Alice", "Terminé", "Critique"⟩]

end GanttPlanner

namespace GanttPlanner

/-- C4: for a task with endDate ≥ startDate the derived duration is
(endDate − startDate) + 1 days, and it is 1 when the dates coincide. -/
theorem duration_inclusive (r : Row) (h : r.startDate ≤ r.endDate) :
    duree r = (r.endDate - r.startDate) + 1 ∧
    (r.startDate = r.endDate → duree r = 1) := by
  refine ⟨rfl, fun he => ?_⟩
  simp [duree, he]

/-- Witness for C4 at a one-day task. -/
theorem duration_inclusive_witness :
    duree ⟨"T", 5, 5, "r", "s", "p"⟩ = (5 - 5) + 1 ∧
    ((5 : Int) = 5 → duree ⟨"T", 5, 5, "r", "s", "p"⟩ = 1) :=
  duration_inclusive ⟨"T", 5, 5, "r", "s", "p"⟩ (by decide)

/-- C1 (failing input): delete_task removes task a from projAB, so the removed
id "a" no longer names any remaining task, yet "a" still sits in a surviving
task's dependency list — the cascade the specification requires is missing. -/
theorem delete_task_leaves_dangling_dependency :
    ((delete_task projAB "a" "now").tasks.all (fun t => t.id ≠ "a")) = true ∧
    ((delete_task projAB "a" "now").tasks.any
      (fun t => t.dependencies.contains "a")) = true := by
  decide

/-- C2: the export chain returns the first succeeding stage's payload with
that stage's MIME type, in the fixed order SVG, PNG, interactive HTML,
JSON-in-viewer, static failure document; in particular a failing vector
stage followed by a succeeding raster stage yields the raster MIME type, and
when every renderer fails the result is the static explanatory document —
the chain is total, so no exception reaches the caller. -/
theorem export_chain_order (svg png html jsonDump : RenderOutcome) :
    (∀ b, svg = .ok b →
      export_gantt_as_image svg png html jsonDump = (b, "image/svg+xml")) ∧
    (∀ b e, svg = .err e → png = .ok b →
      export_gantt_as_image svg png html jsonDump = (b, "image/png")) ∧
    (∀ b e e2, svg = .err e → png = .err e2 → html = .ok b →
      export_gantt_as_image svg png html jsonDump = (b, "text/html")) ∧
    (∀ s e e2 e3, svg = .err e → png = .err e2 → html = .err e3 →
      jsonDump = .ok s →
      export_gantt_as_image svg png html jsonDump
        = (json_viewer_html s, "text/html")) ∧
    (∀ e e2 e3 e4, svg = .err e → png = .err e2 → html = .err e3 →
      jsonDump = .err e4 →
      export_gantt_as_image svg png html jsonDump
        = (export_error_html, "text/html")) := by
  refine ⟨?_, ?_, ?_, ?_, ?_⟩
  · rintro b rfl; rfl
  · rintro b e rfl rfl; rfl
  · rintro b e e2 rfl rfl rfl; rfl
  · rintro s e e2 e3 rfl rfl rfl rfl; rfl
  · rintro e e2 e3 e4 rfl rfl rfl rfl; rfl

/-- Witness for C2: vector stage fails, raster stage succeeds, and the chain
returns the raster payload under the raster MIME type. -/
theorem export_chain_order_witness :
    export_gantt_as_image (.err "kaleido missing") (.ok "pngbytes")
      (.ok "htmldoc") (.ok "jsondoc") = ("pngbytes", "image/png") :=
  (export_chain_order (.err "kaleido missing") (.ok "pngbytes")
    (.ok "htmldoc") (.ok "jsondoc")).2.1 "pngbytes" "kaleido missing" rfl rfl

/-- A value a python-dict lookup returns is one of the dict's stored values. -/
theorem dictLookup_eq_some_mem {β : Type} (m : List (String × β)) (k : String)
    (v : β) (h : dictLookup m k = some v) : v ∈ m.map Prod.snd := by
  unfold dictLookup at h
  cases hf : m.reverse.find? (fun p => p.1 = k) with
  | none => rw [hf] at h; simp at h
  | some q =>
    rw [hf] at h
    simp only [Option.map_some', Option.some.injEq] at h
    subst h
    have hq := List.mem_of_find?_eq_some hf
    rw [List.mem_reverse] at hq
    exact List.mem_map.2 ⟨q, hq, rfl⟩

/-- The two rewriting passes of duplicate_project (fresh ids, then dependency
remapping) compose into one pass over the task/fresh-id pairs. -/
theorem duplicate_project_tasks_eq (p : Project) (newProjectId now : String)
    (fresh : List String) :
    (duplicate_project p newProjectId now fresh).tasks
      = (p.tasks.zip fresh).map (fun q =>
          { q.1 with
            id := q.2,
            dependencies := q.1.dependencies.filterMap
              (fun d => dictLookup ((p.tasks.zip fresh).map
                (fun q3 => (q3.1.id, q3.2))) d) }) := by
  simp only [duplicate_project, List.map_map]
  rfl

/-- C9: in a duplicated project every dependency id of every task names a
task that exists in the duplicate (old ids were remapped through the old→new
mapping and unmapped ids dropped), and, when the fresh ids avoid the original
ids, no task of the duplicate keeps an id of the original project's tasks. -/
theorem duplicate_project_closed (p : Project) (newProjectId now : String)
    (fresh : List String) (hlen : fresh.length = p.tasks.length)
    (hfresh : ∀ f ∈ fresh, f ∉ p.tasks.map Task.id) :
    (∀ t ∈ (duplicate_project p newProjectId now fresh).tasks,
      ∀ d ∈ t.dependencies,
        ∃ t2 ∈ (duplicate_project p newProjectId now fresh).tasks, t2.id = d) ∧
    (∀ t ∈ (duplicate_project p newProjectId now fresh).tasks,
      t.id ∉ p.tasks.map Task.id) := by
  have _hl := hlen
  constructor
  · intro t ht d hd
    rw [duplicate_project_tasks_eq, List.mem_map] at ht
    obtain ⟨q, hq, rfl⟩ := ht
    have hd2 : d ∈ q.1.dependencies.filterMap
        (fun d2 => dictLookup ((p.tasks.zip fresh).map
          (fun q3 => (q3.1.id, q3.2))) d2) := hd
    obtain ⟨a, _, hla⟩ := List.mem_filterMap.mp hd2
    have hmem := dictLookup_eq_some_mem _ _ _ hla
    rw [List.map_map] at hmem
    obtain ⟨q2, hq2, hq2d⟩ := List.mem_map.mp hmem
    refine ⟨{ q2.1 with
      id := q2.2,
      dependencies := q2.1.dependencies.filterMap
        (fun d2 => dictLookup ((p.tasks.zip fresh).map
          (fun q3 => (q3.1.id, q3.2))) d2) }, ?_, hq2d⟩
    rw [duplicate_project_tasks_eq]
    exact List.mem_map.mpr ⟨q2, hq2, rfl⟩
  · intro t ht
    rw [duplicate_project_tasks_eq, List.mem_map] at ht
    obtain ⟨q, hq, rfl⟩ := ht
    exact hfresh q.2 (List.of_mem_zip hq).2

/-- A left fold of min never exceeds its initial accumulator. -/
theorem foldl_min_le_init {α : Type} [LinearOrder α] (l : List α) (a : α) :
    l.foldl min a ≤ a := by
  induction l generalizing a with
  | nil => exact le_refl a
  | cons b l ih => exact le_trans (ih (min a b)) (min_le_left a b)

/-- A left fold of min never exceeds any list element. -/
theorem foldl_min_le_mem {α : Type} [LinearOrder α] (l : List α) (a : α) :
    ∀ x ∈ l, l.foldl min a ≤ x := by
  induction l generalizing a with
  | nil => intro x hx; cases hx
  | cons b l ih =>
    intro x hx
    rcases List.mem_cons.mp hx with rfl | hx
    · exact le_trans (foldl_min_le_init l (min a x)) (min_le_right a x)
    · exact ih (min a b) x hx

/-- A left fold of min is the initial accumulator or one of the elements. -/
theorem foldl_min_mem {α : Type} [LinearOrder α] (l : List α) (a : α) :
    l.foldl min a = a ∨ l.foldl min a ∈ l := by
  induction l generalizing a with
  | nil => exact Or.inl rfl
  | cons b l ih =>
    rcases ih (min a b) with h | h
    · rcases min_choice a b with hm | hm
      · exact Or.inl (by rw [List.foldl_cons, h, hm])
      · exact Or.inr (by rw [List.foldl_cons, h, hm]; exact List.mem_cons_self b l)
    · exact Or.inr (List.mem_cons_of_mem b h)

/-- A left fold of max is at least its initial accumulator. -/
theorem foldl_max_init_le {α : Type} [LinearOrder α] (l : List α) (a : α) :
    a ≤ l.foldl max a := by
  induction l generalizing a with
  | nil => exact le_refl a
  | cons b l ih => exact le_trans (le_max_left a b) (ih (max a b))

/-- A left fold of max is at least any list element. -/
theorem foldl_max_mem_le {α : Type} [LinearOrder α] (l : List α) (a : α) :
    ∀ x ∈ l, x ≤ l.foldl max a := by
  induction l generalizing a with
  | nil => intro x hx; cases hx
  | cons b l ih =>
    intro x hx
    rcases List.mem_cons.mp hx with rfl | hx
    · exact le_trans (le_max_right a x) (foldl_max_init_le l (max a x))
    · exact ih (max a b) x hx

/-- A left fold of max is the initial accumulator or one of the elements. -/
theorem foldl_max_mem {α : Type} [LinearOrder α] (l : List α) (a : α) :
    l.foldl max a = a ∨ l.foldl max a ∈ l := by
  induction l generalizing a with
  | nil => exact Or.inl rfl
  | cons b l ih =>
    rcases ih (max a b) with h | h
    · rcases max_choice a b with hm | hm
      · exact Or.inl (by rw [List.foldl_cons, h, hm])
      · exact Or.inr (by rw [List.foldl_cons, h, hm]; exact List.mem_cons_self b l)
    · exact Or.inr (List.mem_cons_of_mem b h)

/-- C3: stats of an empty task table are all zero (completion rate
included); for a non-empty table the completion rate is
100·completed/total, the counts are the filter lengths, and the project
duration is (max end date − min start date) + 1, where the folded dates are
genuinely the minimum start and the maximum end over the table. -/
theorem calculate_project_stats_spec (df : List Row) :
    (df = [] → calculate_project_stats df = ⟨0, 0, 0, 0, 0, 0⟩) ∧
    (df ≠ [] →
      (calculate_project_stats df).total_tasks = df.length ∧
      (calculate_project_stats df).completed_tasks
          = (df.filter (fun x => x.status = "Terminé")).length ∧
      (calculate_project_stats df).completion_rate
          = 100 * (((df.filter (fun x => x.status = "Terminé")).length : ℚ)
              / (df.length : ℚ)) ∧
      (calculate_project_stats df).critical_tasks
          = (df.filter (fun x => x.priority = "Critique")).length ∧
      (calculate_project_stats df).delayed_tasks
          = (df.filter (fun x => x.status = "En retard")).length ∧
      ∃ s ∈ df.map Row.startDate, ∃ e ∈ df.map Row.endDate,
        (∀ s2 ∈ df.map Row.startDate, s ≤ s2) ∧
        (∀ e2 ∈ df.map Row.endDate, e2 ≤ e) ∧
        (calculate_project_stats df).duration = e - s + 1) := by
  cases df with
  | nil => exact ⟨fun _ => rfl, fun h => absurd rfl h⟩
  | cons t ts =>
    refine ⟨fun h => (by cases h), fun _ => ?_⟩
    refine ⟨rfl, rfl, mul_comm _ _, rfl, rfl, ?_⟩
    have hs : ts.foldl (fun m x => min m x.startDate) t.startDate
        = (ts.map Row.startDate).foldl min t.startDate := by
      rw [List.foldl_map]
    have he : ts.foldl (fun m x => max m x.endDate) t.endDate
        = (ts.map Row.endDate).foldl max t.endDate := by
      rw [List.foldl_map]
    refine ⟨ts.foldl (fun m x => min m x.startDate) t.startDate, ?_,
      ts.foldl (fun m x => max m x.endDate) t.endDate, ?_, ?_, ?_, ?_⟩
    · rw [hs, List.map_cons]
      rcases foldl_min_mem (ts.map Row.startDate) t.startDate with h | h
      · rw [h]; exact List.mem_cons_self _ _
      · exact List.mem_cons_of_mem _ h
    · rw [he, List.map_cons]
      rcases foldl_max_mem (ts.map Row.endDate) t.endDate with h | h
      · rw [h]; exact List.mem_cons_self _ _
      · exact List.mem_cons_of_mem _ h
    · intro s2 hs2
      rw [List.map_cons] at hs2
      rcases List.mem_cons.mp hs2 with rfl | hs2
      · rw [hs]; exact foldl_min_le_init _ _
      · rw [hs]; exact foldl_min_le_mem _ _ s2 hs2
    · intro e2 he2
      rw [List.map_cons] at he2
      rcases List.mem_cons.mp he2 with rfl | he2
      · rw [he]; exact foldl_max_init_le _ _
      · rw [he]; exact foldl_max_mem_le _ _ e2 he2
    · rfl

/-- Sorting by a key yields a list sorted ascending in that key. -/
theorem sorted_sortByKey {α : Type} [LinearOrder α] (key : Row → α)
    (rows : List Row) :
    (sortByKey key rows).Sorted (fun a b => key a ≤ key b) := by
  haveI : IsTotal Row (fun a b => key a ≤ key b) :=
    ⟨fun a b => le_total (key a) (key b)⟩
  haveI : IsTrans Row (fun a b => key a ≤ key b) :=
    ⟨fun _ _ _ hab hbc => le_trans hab hbc⟩
  exact List.sorted_insertionSort _ rows

/-- Sorting by a key permutes the rows. -/
theorem perm_sortByKey {α : Type} [LinearOrder α] (key : Row → α)
    (rows : List Row) : (sortByKey key rows).Perm rows :=
  List.perm_insertionSort _ rows

/-- C5: the chart's sort step orders rows by descending duration when the
sort column is the duration, and ascending in the chosen key for each of the
other supported columns (start date, end date, resource, priority); each
sort is a permutation of the input rows. -/
theorem create_gantt_chart_sort_spec (rows : List Row) :
    ((create_gantt_chart_sort "Durée" rows).Sorted
        (fun a b => duree b ≤ duree a) ∧
      (create_gantt_chart_sort "Durée" rows).Perm rows) ∧
    ((create_gantt_chart_sort "Date de début" rows).Sorted
        (fun a b => a.startDate ≤ b.startDate) ∧
      (create_gantt_chart_sort "Date de début" rows).Perm rows) ∧
    ((create_gantt_chart_sort "Date de fin" rows).Sorted
        (fun a b => a.endDate ≤ b.endDate) ∧
      (create_gantt_chart_sort "Date de fin" rows).Perm rows) ∧
    ((create_gantt_chart_sort "Responsable" rows).Sorted
        (fun a b => a.resource ≤ b.resource) ∧
      (create_gantt_chart_sort "Responsable" rows).Perm rows) ∧
    ((create_gantt_chart_sort "Priorité" rows).Sorted
        (fun a b => a.priority ≤ b.priority) ∧
      (create_gantt_chart_sort "Priorité" rows).Perm rows) := by
  have hD : create_gantt_chart_sort "Durée" rows
      = @List.insertionSort Row (fun a b => duree b ≤ duree a)
        (fun a b => inferInstanceAs (Decidable (duree b ≤ duree a))) rows := rfl
  have h1 : create_gantt_chart_sort "Date de début" rows
      = sortByKey (fun r => r.startDate) rows := rfl
  have h2 : create_gantt_chart_sort "Date de fin" rows
      = sortByKey (fun r => r.endDate) rows := rfl
  have h3 : create_gantt_chart_sort "Responsable" rows
      = sortByKey (fun r => r.resource) rows := rfl
  have h4 : create_gantt_chart_sort "Priorité" rows
      = sortByKey (fun r => r.priority) rows := rfl
  refine ⟨⟨?_, ?_⟩, ⟨?_, ?_⟩, ⟨?_, ?_⟩, ⟨?_, ?_⟩, ⟨?_, ?_⟩⟩
  · rw [hD]
    haveI : IsTotal Row (fun a b => duree b ≤ duree a) :=
      ⟨fun a b => le_total (duree b) (duree a)⟩
    haveI : IsTrans Row (fun a b => duree b ≤ duree a) :=
      ⟨fun _ _ _ hab hbc => le_trans hbc hab⟩
    exact List.sorted_insertionSort _ rows
  · rw [hD]; exact List.perm_insertionSort _ rows
  · rw [h1]; exact sorted_sortByKey _ rows
  · rw [h1]; exact perm_sortByKey _ rows
  · rw [h2]; exact sorted_sortByKey _ rows
  · rw [h2]; exact perm_sortByKey _ rows
  · rw [h3]; exact sorted_sortByKey _ rows
  · rw [h3]; exact perm_sortByKey _ rows
  · rw [h4]; exact sorted_sortByKey _ rows
  · rw [h4]; exact perm_sortByKey _ rows

/-- Witness for C3 at the one-row table dfStats. -/
theorem calculate_project_stats_spec_witness :
    (calculate_project_stats dfStats).total_tasks = dfStats.length ∧
    (calculate_project_stats dfStats).completed_tasks
        = (dfStats.filter (fun x => x.status = "Terminé")).length ∧
    (calculate_project_stats dfStats).completion_rate
        = 100 * (((dfStats.filter (fun x => x.status = "Terminé")).length : ℚ)
            / (dfStats.length : ℚ)) ∧
    (calculate_project_stats dfStats).critical_tasks
        = (dfStats.filter (fun x => x.priority = "Critique")).length ∧
    (calculate_project_stats dfStats).delayed_tasks
        = (dfStats.filter (fun x => x.status = "En retard")).length ∧
    ∃ s ∈ dfStats.map Row.startDate, ∃ e ∈ dfStats.map Row.endDate,
      (∀ s2 ∈ dfStats.map Row.startDate, s ≤ s2) ∧
      (∀ e2 ∈ dfStats.map Row.endDate, e2 ≤ e) ∧
      (calculate_project_stats dfStats).duration = e - s + 1 :=
  (calculate_project_stats_spec dfStats).2 (by decide)

/-- Witness for C9: duplicating projAB with fresh ids n1, n2 leaves the
copied dependency of the copied second task pointing at a task of the
duplicate. -/
theorem duplicate_project_closed_witness :
    ∃ t2 ∈ (duplicate_project projAB "p2" "t0" ["n1", "n2"]).tasks,
      t2.id = "n1" :=
  (duplicate_project_closed projAB "p2" "t0" ["n1", "n2"] (by decide)
      (by decide)).1
    ⟨"n2", "Conception", "2024-01-06", "2024-01-10", "Bob", "En cours",
      "Haute", ["n1"], ""⟩
    (by decide) "n1" (by decide)

/-- One row fails the end-before-start test exactly when both dates parsed
and the end date is strictly before the start date. -/
theorem end_before_start_iff (r : Option Int × Option Int) :
    end_before_start r = true ↔
      ∃ a b, r.1 = some a ∧ r.2 = some b ∧ b < a := by
  obtain ⟨r1, r2⟩ := r
  cases r1 with
  | none => simp [end_before_start]
  | some a =>
    cases r2 with
    | none => simp [end_before_start]
    | some b =>
      simp [end_before_start]

/-- C6: validation returns false exactly when a required column is missing
under every accepted synonym, or some date cell failed to parse, or some
row's end date precedes its start date — and true otherwise; the reason
string is never empty. -/
theorem validate_excel_file_spec (s : Sheet) :
    ((validate_excel_file s).1 = false ↔
      (missing_columns s.columns ≠ [] ∨
        (∃ r ∈ s.rows, r.1 = none ∨ r.2 = none) ∨
        (∃ r ∈ s.rows, ∃ a b, r.1 = some a ∧ r.2 = some b ∧ b < a))) ∧
    0 < (validate_excel_file s).2.length := by
  simp only [validate_excel_file]
  split_ifs with h1 h2 h3
  · refine ⟨⟨fun _ => Or.inl h1, fun _ => rfl⟩, ?_⟩
    have hpre : 0 < ("Colonnes manquantes : ").length := by decide
    calc 0 < ("Colonnes manquantes : ").length := hpre
      _ ≤ ("Colonnes manquantes : "
            ++ String.intercalate ", " (missing_columns s.columns)).length := by
          rw [String.length_append]; exact Nat.le_add_right _ _
  · refine ⟨⟨fun _ => ?_, fun _ => rfl⟩, by decide⟩
    refine Or.inr (Or.inl ?_)
    obtain ⟨r, hr, hcond⟩ := List.any_eq_true.mp h2
    refine ⟨r, hr, ?_⟩
    rcases Bool.or_eq_true_iff.mp hcond with hn | hn
    · exact Or.inl (Option.isNone_iff_eq_none.mp hn)
    · exact Or.inr (Option.isNone_iff_eq_none.mp hn)
  · refine ⟨⟨fun _ => ?_, fun _ => rfl⟩, by decide⟩
    refine Or.inr (Or.inr ?_)
    obtain ⟨r, hr, hcond⟩ := List.any_eq_true.mp h3
    exact ⟨r, hr, (end_before_start_iff r).mp hcond⟩
  · refine ⟨⟨fun hfalse => (by cases hfalse), fun hdisj => ?_⟩, by decide⟩
    rcases hdisj with hm | he | hl
    · exact absurd hm h1
    · obtain ⟨r, hr, hn⟩ := he
      refine absurd ?_ h2
      refine List.any_eq_true.mpr ⟨r, hr, ?_⟩
      rcases hn with hn | hn
      · exact Bool.or_eq_true_iff.mpr (Or.inl (by rw [hn]; rfl))
      · exact Bool.or_eq_true_iff.mpr (Or.inr (by rw [hn]; rfl))
    · obtain ⟨r, hr, hab⟩ := hl
      refine absurd ?_ h3
      exact List.any_eq_true.mpr ⟨r, hr, (end_before_start_iff r).mpr hab⟩

/-- A successful name→id lookup returns the id of a task of the list bearing
that name. -/
theorem task_name_to_id_some (tasks : List Task) (nm v : String)
    (h : task_name_to_id tasks nm = some v) :
    ∃ t ∈ tasks, t.name = nm ∧ t.id = v := by
  unfold task_name_to_id dictLookup at h
  cases hf : (tasks.map (fun t => (t.name, t.id))).reverse.find?
      (fun p => p.1 = nm) with
  | none => rw [hf] at h; simp at h
  | some q =>
    rw [hf] at h
    simp only [Option.map_some', Option.some.injEq] at h
    have hq := List.mem_of_find?_eq_some hf
    have hpred := List.find?_some hf
    rw [List.mem_reverse, List.mem_map] at hq
    obtain ⟨t, ht, rfl⟩ := hq
    simp only [decide_eq_true_eq] at hpred
    exact ⟨t, ht, hpred, h⟩

/-- A name no current task bears looks up to none. -/
theorem task_name_to_id_none (tasks : List Task) (nm : String)
    (h : ∀ t ∈ tasks, t.name ≠ nm) : task_name_to_id tasks nm = none := by
  unfold task_name_to_id dictLookup
  have hf : (tasks.map (fun t => (t.name, t.id))).reverse.find?
      (fun p => p.1 = nm) = none := by
    rw [List.find?_eq_none]
    intro p hp
    rw [List.mem_reverse, List.mem_map] at hp
    obtain ⟨t, ht, rfl⟩ := hp
    simp only [decide_eq_true_eq]
    exact h t ht
  rw [hf]
  rfl

/-- When some current task bears the name, the lookup returns the id of one
task bearing it (the dict keeps the last binding, so the choice is
deterministic). -/
theorem task_name_to_id_total (tasks : List Task) (nm : String) (t : Task)
    (ht : t ∈ tasks) (hn : t.name = nm) :
    ∃ t2, t2 ∈ tasks ∧ t2.name = nm ∧
      task_name_to_id tasks nm = some t2.id := by
  cases hv : task_name_to_id tasks nm with
  | some v =>
    obtain ⟨t2, ht2, hn2, hi2⟩ := task_name_to_id_some tasks nm v hv
    exact ⟨t2, ht2, hn2, by rw [hi2]⟩
  | none =>
    exfalso
    unfold task_name_to_id dictLookup at hv
    cases hf : (tasks.map (fun t => (t.name, t.id))).reverse.find?
        (fun p => p.1 = nm) with
    | some q => rw [hf] at hv; simp at hv
    | none =>
      rw [List.find?_eq_none] at hf
      refine hf (t.name, t.id) ?_ (by simp [hn])
      rw [List.mem_reverse]
      exact List.mem_map_of_mem _ ht

/-- C7: dependency re-resolution maps every kept display name to the id of a
task present in the project at the time of the call; a name no current task
bears resolves to none and is dropped by the filter; and a borne name always
resolves to the id of some task bearing it, chosen deterministically by the
dict's last-binding rule. -/
theorem update_tasks_dependency_resolution (tasks : List Task)
    (depStr : String) :
    (∀ d ∈ resolve_dependencies tasks depStr, ∃ t ∈ tasks, t.id = d) ∧
    (∀ nm, (∀ t ∈ tasks, t.name ≠ nm) → task_name_to_id tasks nm = none) ∧
    (∀ nm t, t ∈ tasks → t.name = nm →
      ∃ t2, t2 ∈ tasks ∧ t2.name = nm ∧
        task_name_to_id tasks nm = some t2.id) := by
  refine ⟨?_, fun nm h => task_name_to_id_none tasks nm h,
    fun nm t ht hn => task_name_to_id_total tasks nm t ht hn⟩
  intro d hd
  unfold resolve_dependencies resolve_row_dependencies at hd
  by_cases he : depStr = ""
  · rw [if_pos he] at hd; cases hd
  · rw [if_neg he] at hd
    obtain ⟨n, _, hlook⟩ := List.mem_filterMap.mp hd
    obtain ⟨t, ht, _, hid⟩ := task_name_to_id_some tasks n d hlook
    exact ⟨t, ht, hid⟩

/-- Witness for C7: in projAB the name Analyse resolves to the id of a task
of the project bearing that name. -/
theorem update_tasks_dependency_resolution_witness :
    ∃ t2, t2 ∈ projAB.tasks ∧ t2.name = "Analyse" ∧
      task_name_to_id projAB.tasks "Analyse" = some t2.id :=
  (update_tasks_dependency_resolution projAB.tasks "Analyse").2.2 "Analyse"
    taskA (by decide) (by decide)

/-- Every element of the accumulator or of the list survives the first-seen
deduplicating fold. -/
theorem mem_uniqueFirstSeen_aux (l : List String) :
    ∀ (acc : List String) (x : String), x ∈ acc ∨ x ∈ l →
      x ∈ l.foldl (fun acc r => if r ∈ acc then acc else acc ++ [r]) acc := by
  induction l with
  | nil =>
    intro acc x h
    rcases h with h | h
    · exact h
    · cases h
  | cons b l ih =>
    intro acc x h
    rw [List.foldl_cons]
    apply ih
    rcases h with h | h
    · left
      by_cases hb : b ∈ acc
      · rw [if_pos hb]; exact h
      · rw [if_neg hb]; exact List.mem_append_left _ h
    · rcases List.mem_cons.mp h with rfl | h
      · left
        by_cases hb : x ∈ acc
        · rw [if_pos hb]; exact hb
        · rw [if_neg hb]; exact List.mem_append_right _ (by simp)
      · right; exact h

/-- Every value of the input appears among the distinct first-seen values. -/
theorem mem_uniqueFirstSeen (l : List String) (x : String) (h : x ∈ l) :
    x ∈ uniqueFirstSeen l :=
  mem_uniqueFirstSeen_aux l [] x (Or.inr h)

/-- C8 (counterexample to the claim as stated): with eleven distinct
resources, one more than the palette, the eleventh first-seen resource
receives no color at all — the palette slice truncates instead of wrapping
around. -/
theorem resource_color_map_misses_eleventh :
    "rA" ∈ elevenResources ∧
    "rA" ∉ (resource_color_map elevenResources).map Prod.fst := by
  decide

/-- C8 (amended): the color map's keys are exactly the distinct resource
values in first-seen order, and — provided there are at most as many
distinct resources as palette entries — every resource value of the rows
receives a color. -/
theorem resource_color_map_assigns (resources : List String)
    (h : (uniqueFirstSeen resources).length ≤ plotlyPalette.length) :
    ((resource_color_map resources).map Prod.fst
        = uniqueFirstSeen resources) ∧
    (∀ r ∈ resources, ∃ c, (r, c) ∈ resource_color_map resources) := by
  have hkeys : (resource_color_map resources).map Prod.fst
      = uniqueFirstSeen resources := by
    simp only [resource_color_map]
    apply List.map_fst_zip
    rw [List.length_take]
    exact le_min (le_refl _) h
  refine ⟨hkeys, fun r hr => ?_⟩
  have hu : r ∈ uniqueFirstSeen resources := mem_uniqueFirstSeen _ r hr
  rw [← hkeys] at hu
  obtain ⟨p, hp, hfst⟩ := List.mem_map.mp hu
  refine ⟨p.2, ?_⟩
  have hrp : (r, p.2) = p := by
    obtain ⟨p1, p2⟩ := p
    simp only at hfst
    rw [hfst]
  rw [hrp]
  exact hp

/-- Witness for C8 (amended) on three rows over two distinct resources. -/
theorem resource_color_map_assigns_witness :
    (resource_color_map ["Alice", "Bob", "Alice"]).map Prod.fst
      = uniqueFirstSeen ["Alice", "Bob", "Alice"] :=
  (resource_color_map_assigns ["Alice", "Bob", "Alice"] (by decide)).1

/-- A document just written under an id is what a lookup of that id finds. -/
theorem dictLookup_store_put (s : List (String × PyDict)) (k : String)
    (v : PyDict) : dictLookup (store_put s k v) k = some v := by
  unfold store_put dictLookup
  rw [List.reverse_append]
  have h1 : ([(k, v)] : List (String × PyDict)).reverse = [(k, v)] := rfl
  rw [h1, List.singleton_append, List.find?_cons_of_pos _ (by simp)]
  rfl

/-- C10: save_project refuses a missing document, an empty document and a
document without an id field, each time returning false and leaving the
store untouched; with an id present it returns true and the store then holds
the document under that id — and a true result only ever arises that way. -/
theorem save_project_spec (store : List (String × PyDict))
    (project : Option PyDict) :
    (project = none → save_project store project = (false, store)) ∧
    (project = some [] → save_project store project = (false, store)) ∧
    (∀ d, project = some d → dictLookup d "id" = none →
      save_project store project = (false, store)) ∧
    (∀ d pid, project = some d → d ≠ [] → dictLookup d "id" = some pid →
      (save_project store project).1 = true ∧
      dictLookup (save_project store project).2 pid = some d) ∧
    ((save_project store project).1 = true →
      ∃ d pid, project = some d ∧ dictLookup d "id" = some pid ∧
        dictLookup (save_project store project).2 pid = some d) := by
  refine ⟨?_, ?_, ?_, ?_, ?_⟩
  · rintro rfl; rfl
  · rintro rfl; rfl
  · rintro d rfl hlook
    by_cases hd : d = []
    · subst hd; rfl
    · simp only [save_project]
      rw [if_neg hd, hlook]
  · rintro d pid rfl hd hlook
    have hsp : save_project store (some d) = (true, store_put store pid d) := by
      simp only [save_project]
      rw [if_neg hd, hlook]
    exact ⟨by rw [hsp], by rw [hsp]; exact dictLookup_store_put store pid d⟩
  · intro htrue
    cases project with
    | none => simp [save_project] at htrue
    | some d =>
      by_cases hd : d = []
      · subst hd
        simp [save_project] at htrue
      · cases hlook : dictLookup d "id" with
        | none =>
          have hsp : save_project store (some d) = (false, store) := by
            simp only [save_project]
            rw [if_neg hd, hlook]
          rw [hsp] at htrue
          simp at htrue
        | some pid =>
          have hsp : save_project store (some d)
              = (true, store_put store pid d) := by
            simp only [save_project]
            rw [if_neg hd, hlook]
          exact ⟨d, pid, rfl, hlook,
            by rw [hsp]; exact dictLookup_store_put store pid d⟩

/-- Witness for C10: saving a two-field document with an id into the empty
store succeeds and the store then holds the document under that id. -/
theorem save_project_spec_witness :
    (save_project [] (some [("id", "p1"), ("name", "X")])).1 = true ∧
    dictLookup (save_project [] (some [("id", "p1"), ("name", "X")])).2 "p1"
      = some [("id", "p1"), ("name", "X")] :=
  (save_project_spec [] (some [("id", "p1"), ("name", "X")])).2.2.2.1
    [("id", "p1"), ("name", "X")] "p1" rfl (by decide) (by decide)

end GanttPlanner
